import Mathlib

/-!
Verification of the timed action execution engine of the `operator` repository.

The engine lives in `src/input_controller.py` (entry point `execute_actions`,
imported by `main.py`) with a second, near-duplicate implementation in
`src/action_executor.py`.  Both take a batch of action dictionaries, blend
rapid repeated key actions by inserting synthetic sleep actions, replay the
result against a millisecond clock with ±3% jitter, and finish with a safety
reset of all tracked keys and mouse buttons.

The embedding below mirrors the Python line by line:

* an action dictionary becomes the structure `Action` (absent dict entries are
  `none`; `d.get(k, 0)` becomes `Option.getD`);
* Python's `int(x)` (truncation toward zero) becomes `pyInt` on `ℚ`;
* each draw of `random.uniform(-0.03, 0.03)` is a value of an explicit jitter
  stream `u : Nat → ℚ`, consumed in program order, so the randomized scheduler
  is a deterministic function of the stream;
* the observable behaviour of one engine call is a list of `Event`s: the
  millisecond sleeps the scheduler performs, the dispatches to the input
  backend (`_execute_single_action`), and the final `reset_all_inputs`;
* `list.sort(key=...)` (Python's stable sort by key) is modelled by the stable
  `List.insertionSort` on the same key, which computes the same list;
* a backend dispatch that raises is modelled by a predicate
  `err : Action → Bool`; `input_controller._execute_single_action` wraps its
  whole body in `try/except` so the loop always continues, while
  `action_executor._execute_single_action` has no handler, so there the
  exception aborts the loop (the `finally` still runs).
-/

namespace Operator

/-- An action dictionary as consumed by both engines.  A field is `none` when
the corresponding key is absent from the dict.  `type` models
`action.get('type')` (the empty string standing for a missing/falsy type). -/
structure Action where
  type : String
  key : Option String := none
  x : Option Int := none
  y : Option Int := none
  button : Option String := none
  direction : Option String := none
  duration_ms : Option Int := none
  time_offset_ms : Option Int := none
  deriving DecidableEq, Repr

/-- `action.get('time_offset_ms', 0)`. -/
def offs (a : Action) : Int :=
  a.time_offset_ms.getD 0

/-- Python `int(x)`: truncation toward zero. -/
def pyInt (q : ℚ) : Int :=
  if 0 ≤ q then ⌊q⌋ else ⌈q⌉

/-- `int(d * (1 + entropy))` for one jitter draw `u` — the realized jittered
millisecond value for a nominal delay or duration `d`. -/
def jitterOne (u : ℚ) (d : Int) : Int :=
  pyInt ((d : ℚ) * (1 + u))

/-- Observable steps of one engine call: a scheduler sleep of a whole number
of milliseconds, a dispatch of an action to the input backend (`ok = false`
when the backend raised), and the final safety reset. -/
inductive Event where
  | sleepEv : Int → Event
  | dispatch : Action → Bool → Event
  | reset : Event
  deriving DecidableEq, Repr

namespace input_controller

/-- `BLEND_DELAY_MS` (src/input_controller.py line 182). -/
def BLEND_DELAY_MS : Int := 150

/-- `BLEND_THRESHOLD_MS` (src/input_controller.py line 183). -/
def BLEND_THRESHOLD_MS : Int := 300

/-- The `last_key_action` dict, newest binding first. -/
abbrev LastMap := List (String × Int × String)

/-- `last_key_action.get(key)`. -/
def lookupKey : LastMap → String → Option (Int × String)
  | [], _ => none
  | (k, t, ty) :: rest, q => if q = k then some (t, ty) else lookupKey rest q

/-- Whether the blender treats the action as a key action:
`action_type in ('key_press', 'key_release', 'key_down', 'key_up') and key`
(an absent or empty `key` is falsy). -/
def isKeyAction (ty : String) (k : String) : Prop :=
  (ty = "key_press" ∨ ty = "key_release" ∨ ty = "key_down" ∨ ty = "key_up") ∧ k ≠ ""

instance (ty k) : Decidable (isKeyAction ty k) := by
  unfold isKeyAction
  infer_instance

/-- The blending loop of `execute_actions` (src/input_controller.py lines
184–208): for a key action whose key was last seen less than
`BLEND_THRESHOLD_MS` ago, emit a synthetic sleep of `BLEND_DELAY_MS` at the
action's offset and shift the action (a fresh copy) forward by
`BLEND_DELAY_MS`; record `(t, action_type)` for the key in every key-action
case. -/
def blendLoop : LastMap → List Action → List Action
  | _, [] => []
  | last, a :: rest =>
    let t := offs a
    match a.key with
    | some k =>
      if isKeyAction a.type k then
        match lookupKey last k with
        | some (last_time, _) =>
          if t - last_time < BLEND_THRESHOLD_MS then
            { type := "sleep", duration_ms := some BLEND_DELAY_MS,
              time_offset_ms := some t } ::
            { a with time_offset_ms := some (t + BLEND_DELAY_MS) } ::
            blendLoop ((k, t + BLEND_DELAY_MS, a.type) :: last) rest
          else
            a :: blendLoop ((k, t, a.type) :: last) rest
        | none => a :: blendLoop ((k, t, a.type) :: last) rest
      else a :: blendLoop last rest
    | none => a :: blendLoop last rest

/-- `actions.sort(key=lambda a: a.get('time_offset_ms', 0))`: Python's sort is
stable, so it computes the same list as stable insertion sort by the same
key. -/
def sortByOffset (actions : List Action) : List Action :=
  List.insertionSort (fun a b => offs a ≤ offs b) actions

/-- The scheduling loop of `execute_actions` (src/input_controller.py lines
216–257), as a function of the jitter stream `u` (jitter draws are consumed in
program order, `i` being the index of the next draw) and of the backend-error
predicate `err`.  Per action: skip entirely if its offset exceeds 2000; sleep
the jittered positive delay and snap `current_offset_ms` to the target (a
negative delay also snaps, without sleeping); consume a synthetic sleep by
sleeping its jittered duration and advancing `current_offset_ms` by the
jittered value, dispatching nothing; otherwise dispatch
(`_execute_single_action` catches every exception itself, so the loop always
continues) and, when the action carries `duration_ms` and is of a hold type,
advance `current_offset_ms` by the jittered duration. -/
def schedLoop (err : Action → Bool) (u : Nat → ℚ) :
    Int → Nat → List Action → List Event
  | _, _, [] => []
  | cur, i, a :: rest =>
    let target := offs a
    if 2000 < target then
      schedLoop err u cur i rest
    else
      let delay := target - cur
      let devs : List Event :=
        if 0 < delay then [Event.sleepEv (jitterOne (u i) delay)] else []
      let i1 : Nat := if 0 < delay then i + 1 else i
      if a.type = "sleep" then
        let d := a.duration_ms.getD 0
        if 0 < d then
          devs ++ Event.sleepEv (jitterOne (u i1) d) ::
            schedLoop err u (target + jitterOne (u i1) d) (i1 + 1) rest
        else
          devs ++ schedLoop err u target i1 rest
      else
        devs ++ Event.dispatch a (!err a) ::
          (match a.duration_ms with
           | some d =>
             if a.type = "key_press" ∨ a.type = "mouse_press" then
               schedLoop err u (target + jitterOne (u i1) d) (i1 + 1) rest
             else schedLoop err u target i1 rest
           | none => schedLoop err u target i1 rest)

/-- `execute_actions` of src/input_controller.py (lines 173–264): empty
batches return at once (before the `try`, so without the safety reset); a
non-empty batch is sorted in place, blended, scheduled, and the `finally`
block runs `reset_all_inputs` exactly once on every remaining exit path. -/
def execute_actions (err : Action → Bool) (u : Nat → ℚ)
    (actions : List Action) : List Event :=
  if actions = [] then []
  else schedLoop err u 0 0 (blendLoop [] (sortByOffset actions)) ++ [Event.reset]

/-- The contents of the caller's list object after
`input_controller.execute_actions` returns: line 179 sorts the caller's list
in place; every later step (blending, scheduling) builds fresh lists and
copies any action it modifies, and the empty batch returns before the sort. -/
def callerListAfter (actions : List Action) : List Action :=
  if actions = [] then actions else sortByOffset actions

end input_controller

namespace action_executor

/-- The blending loop of `execute_actions` (src/action_executor.py lines
80–103).  The code is a verbatim copy of the loop in
src/input_controller.py. -/
def blendLoop : input_controller.LastMap → List Action → List Action
  | _, [] => []
  | last, a :: rest =>
    let t := offs a
    match a.key with
    | some k =>
      if input_controller.isKeyAction a.type k then
        match input_controller.lookupKey last k with
        | some (last_time, _) =>
          if t - last_time < input_controller.BLEND_THRESHOLD_MS then
            { type := "sleep", duration_ms := some input_controller.BLEND_DELAY_MS,
              time_offset_ms := some t } ::
            { a with time_offset_ms := some (t + input_controller.BLEND_DELAY_MS) } ::
            blendLoop ((k, t + input_controller.BLEND_DELAY_MS, a.type) :: last) rest
          else
            a :: blendLoop ((k, t, a.type) :: last) rest
        | none => a :: blendLoop ((k, t, a.type) :: last) rest
      else a :: blendLoop last rest
    | none => a :: blendLoop last rest

/-- The scheduling loop of `execute_actions` (src/action_executor.py lines
107–135).  Identical to the loop of src/input_controller.py except that this
file's `_execute_single_action` has no `try/except`: a raising dispatch
propagates out of the loop (the events after it never happen) and only the
`finally` reset still runs. -/
def schedLoop (err : Action → Bool) (u : Nat → ℚ) :
    Int → Nat → List Action → List Event
  | _, _, [] => []
  | cur, i, a :: rest =>
    let target := offs a
    if 2000 < target then
      schedLoop err u cur i rest
    else
      let delay := target - cur
      let devs : List Event :=
        if 0 < delay then [Event.sleepEv (jitterOne (u i) delay)] else []
      let i1 : Nat := if 0 < delay then i + 1 else i
      if a.type = "sleep" then
        let d := a.duration_ms.getD 0
        if 0 < d then
          devs ++ Event.sleepEv (jitterOne (u i1) d) ::
            schedLoop err u (target + jitterOne (u i1) d) (i1 + 1) rest
        else
          devs ++ schedLoop err u target i1 rest
      else
        if err a then devs ++ [Event.dispatch a false]
        else
          devs ++ Event.dispatch a true ::
            (match a.duration_ms with
             | some d =>
               if a.type = "key_press" ∨ a.type = "mouse_press" then
                 schedLoop err u (target + jitterOne (u i1) d) (i1 + 1) rest
               else schedLoop err u target i1 rest
             | none => schedLoop err u target i1 rest)

/-- `execute_actions` of src/action_executor.py (lines 79–140): no empty-batch
early return and no sort; blending, scheduling, and a `finally` that always
runs `reset_all_inputs`, also when a dispatch raised. -/
def execute_actions (err : Action → Bool) (u : Nat → ℚ)
    (actions : List Action) : List Event :=
  schedLoop err u 0 0 (blendLoop [] actions) ++ [Event.reset]

end action_executor

/-- Keyboard-level events of a single dispatch: `pyautogui.keyDown`,
`pyautogui.keyUp`, and `time.sleep(ms / 1000.0)`. -/
inductive KEvent where
  | down : String → KEvent
  | up : String → KEvent
  | sleepMs : Int → KEvent
  deriving DecidableEq, Repr

/-- `key if key != '\n' else 'enter'`, applied by every key primitive. -/
def pyKeyName (k : String) : String :=
  if k = "\n" then "enter" else k

/-- Effect of one `KEvent` on whether key `k` is held. -/
def heldStep (k : String) (h : Bool) : KEvent → Bool
  | KEvent.down k2 => if k2 = k then true else h
  | KEvent.up k2 => if k2 = k then false else h
  | _ => h

/-- Whether key `k` is held down after the trace `tr` has run (no key is held
before a dispatch starts from a reset state). -/
def heldAfter (k : String) (tr : List KEvent) : Bool :=
  tr.foldl (heldStep k) false

namespace input_controller

/-- The `key_press` branch of `_execute_single_action`
(src/input_controller.py lines 89–101): `keyDown`; then only if
`'duration_ms' in action`, `time.sleep(duration_ms / 1000.0)` followed by
`keyUp`.  A missing or empty key is skipped with a debug log. -/
def keyPressDispatch (key : Option String) (dur : Option Int) : List KEvent :=
  match key with
  | some k =>
    if k ≠ "" then
      KEvent.down (pyKeyName k) ::
        (match dur with
         | some d => [KEvent.sleepMs d, KEvent.up (pyKeyName k)]
         | none => [])
    else []
  | none => []

end input_controller

namespace keyboard_controller

/-- `key_down` of src/keyboard_controller.py (its `try/except` only logs). -/
def key_down (k : String) : List KEvent :=
  [KEvent.down (pyKeyName k)]

/-- `key_up` of src/keyboard_controller.py. -/
def key_up (k : String) : List KEvent :=
  [KEvent.up (pyKeyName k)]

/-- `key_press` of src/keyboard_controller.py (lines 26–31): `key_down`; then
only `if duration_ms:` — Python truthiness, so `None` and `0` both skip the
sleep and the release — `time.sleep` and `key_up`. -/
def key_press (k : String) (duration_ms : Option Int) : List KEvent :=
  key_down k ++
    (match duration_ms with
     | some d => if d ≠ 0 then KEvent.sleepMs d :: key_up k else []
     | none => [])

end keyboard_controller

/-! Concrete actions used in examples, counterexamples and witnesses. -/

/-- A `key_down` action for key `"w"` at offset `t`. -/
def wDown (t : Int) : Action :=
  { type := "key_down", key := some "w", time_offset_ms := some t }

/-- The synthetic sleep dict the blender inserts: duration `d` at offset
`t`. -/
def mkSleep (d t : Int) : Action :=
  { type := "sleep", duration_ms := some d, time_offset_ms := some t }

/-- A `key_down` action for key `"x"` at offset `t`. -/
def xDown (t : Int) : Action :=
  { type := "key_down", key := some "x", time_offset_ms := some t }

/-- The all-clear backend: no dispatch raises. -/
def noErr : Action → Bool := fun _ => false

/-- The jitter-free stream: every draw of `random.uniform(-0.03, 0.03)` came
out as 0. -/
def uZero : Nat → ℚ := fun _ => 0

/-- The stream on which every draw came out as +0.02 (a legal draw). -/
def uFifty : Nat → ℚ := fun _ => (1 : ℚ) / 50

/-- The key under which the blender tracks an action, if any: the action's
`key` when the type is one of the four key variants and the key is truthy. -/
def blendKey (a : Action) : Option String :=
  match a.key with
  | some k => if input_controller.isKeyAction a.type k then some k else none
  | none => none

/-- The offsets of the actions of `xs` tracked under key `k`, in input
order. -/
def occOffs (k : String) (xs : List Action) : List Int :=
  (xs.filter (fun a => blendKey a == some k)).map offs

/-- `int(150 * 1.02) = 153` on the all-+0.02 stream. -/
theorem jitterOne_uFifty_150 (i : Nat) : jitterOne (uFifty i) 150 = 153 := by
  norm_num [uFifty, jitterOne, pyInt]

/-- `int(10 * 1.02) = 10` on the all-+0.02 stream. -/
theorem jitterOne_uFifty_10 (i : Nat) : jitterOne (uFifty i) 10 = 10 := by
  norm_num [uFifty, jitterOne, pyInt]

/-- `int(7 * 1.02) = 7` on the all-+0.02 stream. -/
theorem jitterOne_uFifty_7 (i : Nat) : jitterOne (uFifty i) 7 = 7 := by
  norm_num [uFifty, jitterOne, pyInt]

/-- The scheduling loop of `input_controller.execute_actions` never performs
the safety reset itself; the only reset of a call is the one the `finally`
block appends. -/
theorem ic_schedLoop_no_reset (err : Action → Bool) (u : Nat → ℚ) :
    ∀ cur i xs, Event.reset ∉ input_controller.schedLoop err u cur i xs := by
  intro cur i xs
  induction xs generalizing cur i with
  | nil => simp [input_controller.schedLoop]
  | cons a rest ih =>
    rw [input_controller.schedLoop]
    split
    · exact ih _ _
    · dsimp only
      rcases hm : a.duration_ms with _ | d <;>
        simp only [hm, Option.getD_some, Option.getD_none] <;>
        split_ifs <;>
        simp [ih]

/-- Claim C1, counterexample: on the empty batch
`input_controller.execute_actions` returns before the `try/finally`
(`if not actions: return`, line 175), so the safety reset does not run — its
reset count is 0, not 1. -/
theorem C1_counterexample :
    ¬ (input_controller.execute_actions noErr uZero []).count Event.reset = 1 := by
  decide

/-- Claim C1 as amended: for every non-empty batch, every jitter stream, and
every pattern of backend errors (each contained inside
`_execute_single_action`), the safety reset runs exactly once before
`execute_actions` returns; the empty batch alone returns early without it. -/
theorem C1_safety_reset_once_nonempty (err : Action → Bool) (u : Nat → ℚ)
    (actions : List Action) (h : actions ≠ []) :
    (input_controller.execute_actions err u actions).count Event.reset = 1 := by
  rw [input_controller.execute_actions, if_neg h, List.count_append]
  rw [List.count_eq_zero_of_not_mem (ic_schedLoop_no_reset err u 0 0 _)]
  rfl

/-- Witness for C1 at the one-action batch `[wDown 0]`. -/
theorem C1_witness :
    [wDown 0] ≠ ([] : List Action) ∧
      (input_controller.execute_actions noErr uZero [wDown 0]).count Event.reset = 1 :=
  ⟨by decide, C1_safety_reset_once_nonempty noErr uZero [wDown 0] (by decide)⟩

/-- Claim C2 (confirmed): an action whose `time_offset_ms` exceeds 2000 is
skipped entirely by the scheduling loop — no dispatch, no sleep, no change to
`current_offset_ms` or to the jitter stream position — and the loop continues
with exactly the remaining actions. -/
theorem C2_over_window_action_skipped (err : Action → Bool) (u : Nat → ℚ)
    (cur : Int) (i : Nat) (a : Action) (rest : List Action)
    (h : 2000 < offs a) :
    input_controller.schedLoop err u cur i (a :: rest) =
      input_controller.schedLoop err u cur i rest := by
  rw [input_controller.schedLoop]
  simp [h]

/-- Witness for C2 at an action with offset 2500. -/
theorem C2_witness :
    2000 < offs (wDown 2500) ∧
      input_controller.schedLoop noErr uZero 0 0 [wDown 2500] =
        input_controller.schedLoop noErr uZero 0 0 [] :=
  ⟨by decide, C2_over_window_action_skipped noErr uZero 0 0 (wDown 2500) [] (by decide)⟩

/-- Claim C3 (confirmed): a key action whose key was last recorded less than
`BLEND_THRESHOLD_MS = 300` ms earlier makes the blender emit a synthetic sleep
of `BLEND_DELAY_MS = 150` ms at the action's original offset and shift (a copy
of) the action forward by 150 ms; concretely, two `key_down` actions for `"w"`
at offsets 0 and 100 blend to `[w@0, sleep150@100, w@250]`, while offsets 0
and 500 blend unchanged. -/
theorem C3_blend_threshold_behavior :
    (∀ (last : input_controller.LastMap) (a : Action) (rest : List Action)
        (k : String) (lt : Int) (ty : String),
      a.key = some k →
      input_controller.isKeyAction a.type k →
      input_controller.lookupKey last k = some (lt, ty) →
      offs a - lt < input_controller.BLEND_THRESHOLD_MS →
      input_controller.blendLoop last (a :: rest) =
        mkSleep 150 (offs a) ::
          { a with time_offset_ms := some (offs a + 150) } ::
          input_controller.blendLoop ((k, offs a + 150, a.type) :: last) rest) ∧
    input_controller.blendLoop [] [wDown 0, wDown 100] =
      [wDown 0, mkSleep 150 100, wDown 250] ∧
    input_controller.blendLoop [] [wDown 0, wDown 500] = [wDown 0, wDown 500] := by
  refine ⟨?_, by decide, by decide⟩
  intro last a rest k lt ty hk hik hlk hlt
  rw [input_controller.blendLoop]
  simp [hk, hik, hlk, hlt, mkSleep,
    input_controller.BLEND_DELAY_MS]

/-- Witness for C3: the general clause applied to `w@100` after `w` was
recorded at time 0. -/
theorem C3_witness :
    (wDown 100).key = some "w" ∧
    input_controller.isKeyAction (wDown 100).type "w" ∧
    input_controller.lookupKey [("w", 0, "key_down")] "w" = some (0, "key_down") ∧
    offs (wDown 100) - 0 < input_controller.BLEND_THRESHOLD_MS ∧
    input_controller.blendLoop [("w", 0, "key_down")] [wDown 100] =
      mkSleep 150 (offs (wDown 100)) ::
        { wDown 100 with time_offset_ms := some (offs (wDown 100) + 150) } ::
        input_controller.blendLoop
          (("w", offs (wDown 100) + 150, (wDown 100).type) :: [("w", 0, "key_down")]) [] :=
  ⟨rfl, by decide, rfl, by decide,
    C3_blend_threshold_behavior.1 [("w", 0, "key_down")] (wDown 100) [] "w" 0 "key_down"
      rfl (by decide) rfl (by decide)⟩

/-- Claim C4, counterexample: on the all-+0.02 jitter stream, after the
synthetic sleep `sleep150@0` the scheduler holds `current_offset_ms = 153`
(the jittered value), so a following action at offset 160 gets a delay sleep
of `int(7 * 1.02) = 7` ms; had `current_offset_ms` advanced by the unjittered
150, the continuation would start from 150 and sleep `int(10 * 1.02) = 10` ms.
The actual trace differs from the claimed one. -/
theorem C4_counterexample :
    input_controller.schedLoop noErr uFifty 0 0 [mkSleep 150 0, xDown 160] ≠
      Event.sleepEv (jitterOne (uFifty 0) 150) ::
        input_controller.schedLoop noErr uFifty (0 + 150) 1 [xDown 160] := by
  rw [input_controller.schedLoop, input_controller.schedLoop,
    input_controller.schedLoop]
  simp [mkSleep, xDown, offs, noErr, jitterOne_uFifty_150, jitterOne_uFifty_7,
    jitterOne_uFifty_10, input_controller.schedLoop]

/-- Claim C4 as amended: a synthetic sleep action with `duration_ms = d > 0`
arriving when `current_offset_ms` equals its offset `t ≤ 2000` makes the
scheduler sleep the jittered `int(d * (1 + u))` ms, advance
`current_offset_ms` by that same jittered value (not by the unjittered `d`),
and continue with the remaining actions without dispatching anything. -/
theorem C4_sleep_step_jittered_advance (err : Action → Bool) (u : Nat → ℚ)
    (i : Nat) (t d : Int) (rest : List Action)
    (hd : 0 < d) (ht : t ≤ 2000) :
    input_controller.schedLoop err u t i (mkSleep d t :: rest) =
      Event.sleepEv (jitterOne (u i) d) ::
        input_controller.schedLoop err u (t + jitterOne (u i) d) (i + 1) rest := by
  rw [input_controller.schedLoop]
  simp [mkSleep, offs, not_lt.mpr ht, hd]

/-- Witness for C4 at `d = 150`, `t = 0`, jitter stream index 5. -/
theorem C4_witness :
    (0 : Int) < 150 ∧ (0 : Int) ≤ 2000 ∧
      input_controller.schedLoop noErr uZero 0 5 [mkSleep 150 0] =
        Event.sleepEv (jitterOne (uZero 5) 150) ::
          input_controller.schedLoop noErr uZero (0 + jitterOne (uZero 5) 150) (5 + 1) [] :=
  ⟨by decide, by decide,
    C4_sleep_step_jittered_advance noErr uZero 5 0 150 [] (by decide) (by decide)⟩

/-- Claim C5, counterexample: the jitter draw `u = -0.03` (a legal draw from
`uniform(-0.03, 0.03)`) on `D = 150` realizes `int(150 * 0.97) =
int(145.5) = 145` ms, which is strictly below the claimed lower bound
`0.97 * D = 145.5`. -/
theorem C5_counterexample :
    jitterOne (-(3 : ℚ)/100) 150 = 145 ∧
      ¬ ((97 : ℚ)/100 * 150 ≤ ((jitterOne (-(3 : ℚ)/100) 150 : Int) : ℚ)) := by
  constructor <;> norm_num [jitterOne, pyInt]

/-- Claim C5 as amended: for every positive nominal value `D` and every jitter
draw `u ∈ [-0.03, 0.03]`, the realized value `int(D * (1 + u))` lies in
`(0.97 * D - 1, 1.03 * D]`: the upper bound of the claim holds exactly, the
lower bound only up to the (< 1 ms) loss of the `int` truncation. -/
theorem C5_jitter_bound (d : Int) (q : ℚ) (hd : 0 < d)
    (h1 : -(3/100) ≤ q) (h2 : q ≤ 3/100) :
    (97 : ℚ)/100 * d - 1 < (jitterOne q d : ℚ) ∧
      (jitterOne q d : ℚ) ≤ (103 : ℚ)/100 * d := by
  have hd1 : (1 : ℚ) ≤ (d : ℚ) := by exact_mod_cast hd
  have hlow : (97 : ℚ)/100 * d ≤ (d : ℚ) * (1 + q) := by nlinarith
  have hhigh : (d : ℚ) * (1 + q) ≤ (103 : ℚ)/100 * d := by nlinarith
  have hpos : (0 : ℚ) ≤ (d : ℚ) * (1 + q) := by nlinarith
  unfold jitterOne pyInt
  rw [if_pos hpos]
  constructor
  · have := Int.sub_one_lt_floor ((d : ℚ) * (1 + q))
    linarith
  · have := Int.floor_le ((d : ℚ) * (1 + q))
    linarith

/-- Witness for C5 at `D = 100`, `u = 0`. -/
theorem C5_witness :
    (0 : Int) < 100 ∧ (-(3/100) : ℚ) ≤ 0 ∧ (0 : ℚ) ≤ 3/100 ∧
      ((97 : ℚ)/100 * 100 - 1 < (jitterOne 0 100 : ℚ) ∧
        (jitterOne 0 100 : ℚ) ≤ (103 : ℚ)/100 * 100) :=
  ⟨by norm_num, by norm_num, by norm_num,
    C5_jitter_bound 100 0 (by norm_num) (by norm_num) (by norm_num)⟩

/-- Claim C6, counterexample: blending `[w@0, w@100]` yields
`[w@0, sleep@100, w@250]`; blending that output again sees `w@250` within
300 ms of the recorded `w@0` and inserts a further sleep, yielding
`[w@0, sleep@100, sleep@250, w@400]` — blending is not idempotent. -/
theorem C6_counterexample :
    input_controller.blendLoop []
        (input_controller.blendLoop [] [wDown 0, wDown 100]) ≠
      input_controller.blendLoop [] [wDown 0, wDown 100] := by
  decide

/-- Claim C7, counterexample: the time-sorted input `[w@0, w@100, w@200]`
blends to offsets `[0, 100, 250, 200, 350]`: the second synthetic sleep is
inserted at offset 200, before the already-shifted `w@250`, so the output is
not in non-decreasing offset order. -/
theorem C7_counterexample :
    List.Chain' (· ≤ ·) (([wDown 0, wDown 100, wDown 200]).map offs) ∧
      ¬ List.Chain' (· ≤ ·)
        ((input_controller.blendLoop [] [wDown 0, wDown 100, wDown 200]).map offs) := by
  have hb : input_controller.blendLoop [] [wDown 0, wDown 100, wDown 200] =
      [wDown 0, mkSleep 150 100, wDown 250, mkSleep 150 200, wDown 350] := by
    decide
  constructor
  · simp [wDown, offs, List.chain'_cons]
  · rw [hb]
    simp [wDown, mkSleep, offs, List.chain'_cons]

/-- Claim C8, counterexample: `execute_actions` sorts the caller's list in
place (line 179), so after a call with the unsorted batch `[x@100, w@50]` the
caller's list object holds `[w@50, x@100]` — the caller's list is mutated. -/
theorem C8_counterexample :
    input_controller.callerListAfter [xDown 100, wDown 50] ≠ [xDown 100, wDown 50] := by
  decide

/-- Claim C8 as amended: the blend itself builds a fresh list and copies every
action it modifies, performs no I/O, and is deterministic, but the caller's
list is sorted in place; the mutation is limited to reordering — after the
call the caller's list is a permutation of what was passed in, with every
action object unchanged. -/
theorem C8_caller_list_permuted_only (actions : List Action) :
    (input_controller.callerListAfter actions).Perm actions := by
  rw [input_controller.callerListAfter]
  split
  · exact List.Perm.refl _
  · exact List.perm_insertionSort _ _

/-- Claim C9, counterexample: a `key_press` action without `duration_ms`
dispatches only `keyDown` (the `keyUp` at line 98 is inside the
`if 'duration_ms' in action:` block), so the key is still held when the
action completes. -/
theorem C9_counterexample :
    input_controller.keyPressDispatch (some "w") none = [KEvent.down "w"] ∧
      heldAfter "w" (input_controller.keyPressDispatch (some "w") none) = true := by
  constructor <;> decide

/-- Claim C9 as amended: a `key_press` action with a key holds the key, and
only when `duration_ms` is present blocks for it and releases, leaving the key
up; without `duration_ms` the key stays held and needs a separate
`key_release`/`key_up` action.  `keyboard_controller.key_press` (the
action_executor path) behaves the same for a present non-zero duration. -/
theorem C9_key_press_with_duration_released (k : String) (d : Int)
    (hk : k ≠ "") :
    input_controller.keyPressDispatch (some k) (some d) =
      [KEvent.down (pyKeyName k), KEvent.sleepMs d, KEvent.up (pyKeyName k)] ∧
    heldAfter (pyKeyName k) (input_controller.keyPressDispatch (some k) (some d)) = false ∧
    (d ≠ 0 → keyboard_controller.key_press k (some d) =
      [KEvent.down (pyKeyName k), KEvent.sleepMs d, KEvent.up (pyKeyName k)]) := by
  refine ⟨?_, ?_, ?_⟩
  · simp [input_controller.keyPressDispatch, hk]
  · simp [input_controller.keyPressDispatch, hk, heldAfter, heldStep]
  · intro hd
    simp [keyboard_controller.key_press, keyboard_controller.key_down,
      keyboard_controller.key_up, hd]

/-- Witness for C9 at key `"w"`, duration 100. -/
theorem C9_witness :
    ("w" : String) ≠ "" ∧
      (input_controller.keyPressDispatch (some "w") (some 100) =
        [KEvent.down (pyKeyName "w"), KEvent.sleepMs 100, KEvent.up (pyKeyName "w")] ∧
      heldAfter (pyKeyName "w")
        (input_controller.keyPressDispatch (some "w") (some 100)) = false ∧
      ((100 : Int) ≠ 0 → keyboard_controller.key_press "w" (some 100) =
        [KEvent.down (pyKeyName "w"), KEvent.sleepMs 100, KEvent.up (pyKeyName "w")])) :=
  ⟨by decide, C9_key_press_with_duration_released "w" 100 (by decide)⟩

/-- Claim C10, counterexample: on the empty batch
`input_controller.execute_actions` returns immediately with no events, while
`action_executor.execute_actions` runs its `try/finally` and performs the
safety reset — the two engines are not equivalent. -/
theorem C10_counterexample :
    action_executor.execute_actions noErr uZero [] ≠
      input_controller.execute_actions noErr uZero [] := by
  decide

/-- Prepending an action not tracked under key `k` leaves `k`'s occurrence
offsets unchanged. -/
theorem occOffs_cons_ne (k : String) (a : Action) (rest : List Action)
    (h : blendKey a ≠ some k) :
    occOffs k (a :: rest) = occOffs k rest := by
  simp [occOffs, List.filter_cons, h]

/-- Prepending an action tracked under key `k` prepends its offset to `k`'s
occurrence offsets. -/
theorem occOffs_cons_eq (k : String) (a : Action) (rest : List Action)
    (h : blendKey a = some k) :
    occOffs k (a :: rest) = offs a :: occOffs k rest := by
  simp [occOffs, List.filter_cons, h]

/-- The blend loop is the identity on a list whose same-key occurrences are
spaced at least 300 ms apart, from any `last_key_action` state whose recorded
times are at least 300 ms before the first occurrence of their key. -/
theorem blend_noop_aux (xs : List Action) :
    ∀ last, (∀ k, List.Chain' (fun t1 t2 => 300 ≤ t2 - t1) (occOffs k xs)) →
      (∀ k lt ty, input_controller.lookupKey last k = some (lt, ty) →
        ∀ t, (occOffs k xs).head? = some t → 300 ≤ t - lt) →
      input_controller.blendLoop last xs = xs := by
  induction xs with
  | nil => intro last _ _; rfl
  | cons a rest ih =>
    intro last hx hl
    rw [input_controller.blendLoop]
    rcases hk : a.key with _ | k
    · have hbk : ∀ k', blendKey a ≠ some k' := by simp [blendKey, hk]
      have := ih last
        (fun k' => by rw [← occOffs_cons_ne k' a rest (hbk k')]; exact hx k')
        (fun k' lt ty hlk t ht => hl k' lt ty hlk t
          (by rw [occOffs_cons_ne k' a rest (hbk k')]; exact ht))
      simp [this]
    · dsimp only
      by_cases hik : input_controller.isKeyAction a.type k
      · have hbk : blendKey a = some k := by simp [blendKey, hk, hik]
        have hbk' : ∀ k', k' ≠ k → blendKey a ≠ some k' := by
          intro k' hne
          rw [hbk]
          simp [Ne.symm hne]
        have hchain := hx k
        rw [occOffs_cons_eq k a rest hbk, List.chain'_cons'] at hchain
        obtain ⟨hhead, htail⟩ := hchain
        have hrec : input_controller.blendLoop ((k, offs a, a.type) :: last) rest = rest := by
          apply ih
          · intro k'
            by_cases hne : k' = k
            · subst hne; exact htail
            · rw [← occOffs_cons_ne k' a rest (hbk' k' hne)]; exact hx k'
          · intro k' lt ty hlk t ht
            rw [input_controller.lookupKey] at hlk
            by_cases hne : k' = k
            · subst hne
              rw [if_pos rfl] at hlk
              obtain ⟨h1, h2⟩ := Prod.mk.injEq .. ▸ (Option.some.injEq .. ▸ hlk)
              subst h1
              exact hhead t ht
            · rw [if_neg hne] at hlk
              exact hl k' lt ty hlk t
                (by rw [occOffs_cons_ne k' a rest (hbk' k' hne)]; exact ht)
        simp only [hik, if_true]
        rcases hlk : input_controller.lookupKey last k with _ | ⟨lt, ty⟩
        · simp [hrec]
        · have hge : 300 ≤ offs a - lt := by
            apply hl k lt ty hlk (offs a)
            rw [occOffs_cons_eq k a rest hbk]
            rfl
          have hnb : ¬ (offs a - lt < input_controller.BLEND_THRESHOLD_MS) := by
            simp only [input_controller.BLEND_THRESHOLD_MS]
            omega
          simp [hnb, hrec]
      · have hbk : ∀ k', blendKey a ≠ some k' := by simp [blendKey, hk, hik]
        have := ih last
          (fun k' => by rw [← occOffs_cons_ne k' a rest (hbk k')]; exact hx k')
          (fun k' lt ty hlk t ht => hl k' lt ty hlk t
            (by rw [occOffs_cons_ne k' a rest (hbk k')]; exact ht))
        simp [hik, this]

/-- Claim C6 as amended: blending is not idempotent in general (see the
counterexample), but it is the identity on every sequence in which the
occurrences of each tracked key are spaced at least the 300 ms threshold
apart — in particular no further synthetic sleeps are inserted and no offset
changes for such input. -/
theorem C6_blend_noop_on_spaced (xs : List Action)
    (h : ∀ k, List.Chain' (fun t1 t2 => 300 ≤ t2 - t1) (occOffs k xs)) :
    input_controller.blendLoop [] xs = xs :=
  blend_noop_aux xs [] h (fun k lt ty hlk => by cases hlk)

/-- Witness for C6 at `[w@0, w@500]`: the only tracked key is `"w"`, spaced
500 ms, so blending changes nothing. -/
theorem C6_witness :
    (∀ k, List.Chain' (fun t1 t2 => (300 : Int) ≤ t2 - t1)
        (occOffs k [wDown 0, wDown 500])) ∧
      input_controller.blendLoop [] [wDown 0, wDown 500] = [wDown 0, wDown 500] := by
  have hocc : ∀ k, List.Chain' (fun t1 t2 => (300 : Int) ≤ t2 - t1)
      (occOffs k [wDown 0, wDown 500]) := by
    intro k
    by_cases hk : k = "w"
    · subst hk
      have h1 : occOffs "w" [wDown 0, wDown 500] = [0, 500] := by decide
      rw [h1]
      simp [List.chain'_cons]
    · have hbk : blendKey (wDown 0) = some "w" := by decide
      have hbk5 : blendKey (wDown 500) = some "w" := by decide
      have h1 : occOffs k [wDown 0, wDown 500] = [] := by
        rw [occOffs_cons_ne, occOffs_cons_ne] <;>
          first
          | rfl
          | simp [hbk, hbk5, Ne.symm hk]
      rw [h1]
      exact List.chain'_nil
  exact ⟨hocc, C6_blend_noop_on_spaced [wDown 0, wDown 500] hocc⟩

/-- From any `last_key_action` state, the blend loop on a list whose
consecutive offsets are at least `BLEND_DELAY_MS = 150` apart produces output
in non-decreasing offset order, and the first output offset equals the first
input offset. -/
theorem blend_sorted_aux (xs : List Action) :
    ∀ last, List.Chain' (fun a b => offs a + 150 ≤ offs b) xs →
      List.Chain' (· ≤ ·) ((input_controller.blendLoop last xs).map offs) ∧
      ((input_controller.blendLoop last xs).map offs).head? = (xs.map offs).head? := by
  induction xs with
  | nil =>
    intro last _
    exact ⟨List.chain'_nil, rfl⟩
  | cons a rest ih =>
    intro last h
    rw [List.chain'_cons'] at h
    obtain ⟨hab, hr⟩ := h
    have hnext : ∀ y ∈ ((rest.map offs)).head?, offs a + 150 ≤ y := by
      intro y hy
      cases rest with
      | nil => simp at hy
      | cons b rs =>
        simp only [List.map_cons, List.head?_cons, Option.mem_def,
          Option.some.injEq] at hy
        subst hy
        exact hab b rfl
    have step : ∀ last', List.Chain' (· ≤ ·)
        ((a :: input_controller.blendLoop last' rest).map offs) ∧
        ((a :: input_controller.blendLoop last' rest).map offs).head? =
          ((a :: rest).map offs).head? := by
      intro last'
      obtain ⟨hc, hh⟩ := ih last' hr
      constructor
      · rw [List.map_cons, List.chain'_cons']
        refine ⟨?_, hc⟩
        intro y hy
        rw [hh] at hy
        have := hnext y hy
        omega
      · simp
    rw [input_controller.blendLoop]
    rcases hk : a.key with _ | k
    · exact step last
    · dsimp only
      by_cases hik : input_controller.isKeyAction a.type k
      · simp only [hik, if_true]
        rcases hlk : input_controller.lookupKey last k with _ | ⟨lt, ty⟩
        · exact step _
        · dsimp only
          split_ifs with hb
          · obtain ⟨hc, hh⟩ :=
              ih ((k, offs a + input_controller.BLEND_DELAY_MS, a.type) :: last) hr
            constructor
            · simp only [List.map_cons, List.chain'_cons']
              refine ⟨?_, ?_, hc⟩
              · intro y hy
                simp only [List.head?_cons, Option.mem_def, Option.some.injEq] at hy
                subst hy
                simp [offs, input_controller.BLEND_DELAY_MS]
              · intro y hy
                rw [hh] at hy
                have := hnext y hy
                simp only [offs, Option.getD_some] at *
                simp [input_controller.BLEND_DELAY_MS]
                omega
            · simp [offs]
          · exact step _
      · simp only [hik, if_false]
        exact step last

/-- Claim C7 as amended: the blender's output need not be offset-sorted for
arbitrary sorted input (see the counterexample), but whenever consecutive
input offsets are at least the 150 ms blend delay apart, the output — shifted
actions and synthetic sleeps included — is in non-decreasing offset order. -/
theorem C7_blend_sorted_on_spread (xs : List Action)
    (h : List.Chain' (fun a b => offs a + 150 ≤ offs b) xs) :
    List.Chain' (· ≤ ·) ((input_controller.blendLoop [] xs).map offs) :=
  (blend_sorted_aux xs [] h).1

/-- Witness for C7 at `[w@0, w@200]` (a pair that does get blended). -/
theorem C7_witness :
    List.Chain' (fun a b => offs a + 150 ≤ offs b) [wDown 0, wDown 200] ∧
      List.Chain' (· ≤ ·)
        ((input_controller.blendLoop [] [wDown 0, wDown 200]).map offs) :=
  ⟨by simp [wDown, offs, List.chain'_cons],
    C7_blend_sorted_on_spread [wDown 0, wDown 200]
      (by simp [wDown, offs, List.chain'_cons])⟩

/-- The blend loops of the two engines are the same function: the code of
src/action_executor.py lines 82–102 is a verbatim copy of
src/input_controller.py lines 184–207. -/
theorem ae_blend_eq_ic (xs : List Action) :
    ∀ last, action_executor.blendLoop last xs = input_controller.blendLoop last xs := by
  induction xs with
  | nil => intro last; rfl
  | cons a rest ih =>
    intro last
    rw [action_executor.blendLoop, input_controller.blendLoop]
    rcases a.key with _ | k
    · simp [ih]
    · dsimp only
      by_cases hik : input_controller.isKeyAction a.type k
      · simp only [hik, if_true]
        rcases input_controller.lookupKey last k with _ | ⟨lt, ty⟩
        · simp [ih]
        · dsimp only
          split_ifs <;> simp [ih]
      · simp [hik, ih]

/-- When no dispatch raises, the scheduling loops of the two engines agree:
they only differ in what happens after a raising dispatch. -/
theorem ae_sched_eq_ic (err : Action → Bool) (u : Nat → ℚ)
    (he : ∀ a, err a = false) (xs : List Action) :
    ∀ cur i, action_executor.schedLoop err u cur i xs =
      input_controller.schedLoop err u cur i xs := by
  induction xs with
  | nil => intro cur i; rfl
  | cons a rest ih =>
    intro cur i
    rw [action_executor.schedLoop, input_controller.schedLoop]
    split
    · exact ih _ _
    · dsimp only
      by_cases h2 : a.type = "sleep"
      · simp only [h2, if_true]
        split_ifs <;> simp [ih]
      · simp only [h2, if_false, he a, Bool.not_false]
        rcases a.duration_ms with _ | d <;> simp only [] <;> split_ifs <;>
          first
          | contradiction
          | simp [ih]

/-- Claim C10 as amended: the engines share the blending and skip/timing
logic, and on any non-empty batch that is already sorted by offset and whose
dispatches raise no error, `input_controller.execute_actions` and
`action_executor.execute_actions` produce identical traces.  (They are not
equivalent in general: only input_controller sorts, only input_controller
skips the safety reset on the empty batch, and a raising dispatch aborts the
rest of the batch only in action_executor.) -/
theorem C10_engines_agree_on_sorted_nonempty (err : Action → Bool)
    (u : Nat → ℚ) (actions : List Action)
    (he : ∀ a, err a = false) (hne : actions ≠ [])
    (hs : input_controller.sortByOffset actions = actions) :
    input_controller.execute_actions err u actions =
      action_executor.execute_actions err u actions := by
  rw [input_controller.execute_actions, if_neg hne, hs,
    action_executor.execute_actions, ae_blend_eq_ic, ae_sched_eq_ic err u he]

/-- Witness for C10 at the sorted one-action batch `[wDown 0]` with an
error-free backend. -/
theorem C10_witness :
    (∀ a, noErr a = false) ∧ ([wDown 0] ≠ ([] : List Action)) ∧
      input_controller.sortByOffset [wDown 0] = [wDown 0] ∧
      input_controller.execute_actions noErr uZero [wDown 0] =
        action_executor.execute_actions noErr uZero [wDown 0] :=
  ⟨fun _ => rfl, by decide, by decide,
    C10_engines_agree_on_sorted_nonempty noErr uZero [wDown 0]
      (fun _ => rfl) (by decide) (by decide)⟩

end Operator
